import Mathlib

/-!
Verification development for the AI-code-reviewer repository.

The development shallowly embeds the two core TypeScript modules:

* `src/aiReviewService.ts` — the review orchestrator (`reviewPullRequest`,
  `batchFiles`, `callGroqWithRetry`, `callGroq`, `parseAIResponse`,
  `normalizeSeverity`, `normalizeCategory`, `buildSummary`);
* `src/webhookServer.ts` — the webhook gateway (`handleRequest`,
  `verifySignature`).

JavaScript runtime behaviour that the embedded code relies on
(`JSON.parse`, `JSON.stringify`, template stringification, truthiness)
is modelled explicitly below.  Network and clock effects are passed in as
explicit arguments (an attempt oracle for the remote HTTP calls, a string
for `new Date().toISOString()`); `crypto.createHmac(...).digest(hex)` is
abstracted as a function parameter `hmacHex`.
-/

set_option autoImplicit false

namespace AICodeReviewer

/-! ## Basic string helpers -/

/-- Decides whether `pre` is a prefix of `l` (character lists). -/
def charsHasPre : List Char → List Char → Bool
  | [], _ => true
  | _ :: _, [] => false
  | a :: as, b :: bs => a = b && charsHasPre as bs

/-- Decides whether `pat` occurs as a contiguous substring of `l`.
Models the JavaScript `String.prototype.includes`. -/
def charsIncludes (pat : List Char) : List Char → Bool
  | [] => charsHasPre pat []
  | c :: rest => charsHasPre pat (c :: rest) || charsIncludes pat rest

/-- JavaScript `s.includes(pat)`. -/
def strIncludes (s pat : String) : Bool :=
  charsIncludes pat.toList s.toList

/-- A single-quote character, kept out of string literals. -/
def sq : String := String.singleton (Char.ofNat 39)

/-- ASCII lower-casing of one character (the JavaScript `toLowerCase`
restricted to the ASCII range, which is all the embedded code compares
against). -/
def jsLowerChar (c : Char) : Char :=
  if 'A' ≤ c ∧ c ≤ 'Z' then Char.ofNat (c.toNat + 32) else c

/-- ASCII `toLowerCase` on strings. -/
def jsToLower (s : String) : String :=
  String.mk (s.toList.map jsLowerChar)

/-- The JavaScript `String.prototype.trim` whitespace class
(modelled for the characters that can actually reach it). -/
def jsIsWs (c : Char) : Bool :=
  c = ' ' ∨ c = '\t' ∨ c = '\n' ∨ c = '\r' ∨ c = Char.ofNat 11 ∨ c = Char.ofNat 12 ∨
    c = Char.ofNat 160 ∨ c = Char.ofNat 65279

/-- Model of `String.prototype.trim`. -/
def jsTrim (s : String) : String :=
  String.mk (((s.toList.dropWhile jsIsWs).reverse.dropWhile jsIsWs).reverse)

/-- Take the first `n` characters (JavaScript `substring(0, n)`). -/
def strTake (s : String) (n : Nat) : String :=
  String.mk (s.toList.take n)

/-- Drop the first `n` characters. -/
def strDrop (s : String) (n : Nat) : String :=
  String.mk (s.toList.drop n)

/-- Drop the last `n` characters. -/
def strDropRight (s : String) (n : Nat) : String :=
  String.mk (s.toList.take (s.toList.length - n))

/-! ## JSON values

A model of the JavaScript JSON data domain as produced by `JSON.parse`.
Numbers are modelled as integers only: the code under verification never
manipulates fractional literals, and the model parser simply rejects
fraction/exponent syntax (a conservative narrowing, noted where used). -/

inductive JValue where
  | jnull
  | jbool (b : Bool)
  | jnum (n : Int)
  | jstr (s : String)
  | jarr (items : List JValue)
  | jobj (fields : List (String × JValue))
deriving Repr, Inhabited

/-- JavaScript truthiness of a JSON value. -/
def jTruthy : JValue → Bool
  | .jnull => false
  | .jbool b => b
  | .jnum n => n ≠ 0
  | .jstr s => s ≠ ""
  | .jarr _ => true
  | .jobj _ => true

/-- Property lookup on a JSON object: with duplicate keys, `JSON.parse`
keeps the last occurrence, so lookup scans from the right.  Returns
`none` (JavaScript `undefined`) when the key is absent or the value is
not an object. -/
def jGet (v : JValue) (key : String) : Option JValue :=
  match v with
  | .jobj fields => (fields.reverse.find? (fun kv => kv.1 = key)).map (·.2)
  | _ => none

mutual

/-- JavaScript template/`String()` conversion of a JSON value
(`${v}`): arrays join their elements with commas (`null` rendering as
the empty string inside an array), plain objects render as
`[object Object]`. -/
def jToString : JValue → String
  | .jnull => "null"
  | .jbool b => if b then "true" else "false"
  | .jnum n => toString n
  | .jstr s => s
  | .jobj _ => "[object Object]"
  | .jarr items => String.intercalate "," (jToStringList items)

/-- Elementwise conversion used by array joining. -/
def jToStringList : List JValue → List String
  | [] => []
  | .jnull :: rest => "" :: jToStringList rest
  | v :: rest => jToString v :: jToStringList rest

end

/-! ## JSON parsing (model of `JSON.parse`) -/

/-- Skip JSON whitespace. -/
def skipWs : List Char → List Char
  | c :: rest =>
    if c = ' ' ∨ c = '\n' ∨ c = '\t' ∨ c = '\r' then skipWs rest else c :: rest
  | [] => []

/-- Hexadecimal digit value. -/
def hexVal (c : Char) : Option Nat :=
  if '0' ≤ c ∧ c ≤ '9' then some (c.toNat - '0'.toNat)
  else if 'a' ≤ c ∧ c ≤ 'f' then some (c.toNat - 'a'.toNat + 10)
  else if 'A' ≤ c ∧ c ≤ 'F' then some (c.toNat - 'A'.toNat + 10)
  else none

/-- Parse the body of a JSON string literal (the opening quote already
consumed); returns the decoded characters and the remaining input.
Raw control characters are rejected, as `JSON.parse` does. -/
def parseJStrChars : List Char → Option (List Char × List Char)
  | [] => none
  | c :: rest =>
    if c = '"' then some ([], rest)
    else if c = '\\' then
      match rest with
      | [] => none
      | e :: rest2 =>
        if e = 'u' then
          match rest2 with
          | a :: b :: c2 :: d :: rest3 =>
            match hexVal a, hexVal b, hexVal c2, hexVal d with
            | some ha, some hb, some hc, some hd =>
              (parseJStrChars rest3).map fun p =>
                (Char.ofNat (((ha * 16 + hb) * 16 + hc) * 16 + hd) :: p.1, p.2)
            | _, _, _, _ => none
          | _ => none
        else
          match
            (if e = '"' then some '"'
             else if e = '\\' then some '\\'
             else if e = '/' then some '/'
             else if e = 'b' then some (Char.ofNat 8)
             else if e = 'f' then some (Char.ofNat 12)
             else if e = 'n' then some '\n'
             else if e = 'r' then some '\r'
             else if e = 't' then some '\t'
             else none) with
          | some dec => (parseJStrChars rest2).map fun p => (dec :: p.1, p.2)
          | none => none
    else if c.toNat < 32 then none
    else (parseJStrChars rest).map fun p => (c :: p.1, p.2)

/-- Digits-to-number accumulation. -/
def digitsToNat : List Char → Nat → Nat
  | [], acc => acc
  | c :: rest, acc => digitsToNat rest (acc * 10 + (c.toNat - '0'.toNat))

/-- Parse a JSON number token.  Only integer literals are accepted
(fraction or exponent syntax makes the model parser fail; the embedded
code never feeds it fractional numbers). -/
def parseJNum (cs : List Char) : Option (JValue × List Char) :=
  let (neg, cs1) := match cs with
    | '-' :: rest => (true, rest)
    | _ => (false, cs)
  let digits := cs1.takeWhile Char.isDigit
  let rest := cs1.dropWhile Char.isDigit
  if digits.isEmpty then none
  else if digits.length > 1 ∧ digits.headI = '0' then none
  else
    match rest with
    | '.' :: _ => none
    | 'e' :: _ => none
    | 'E' :: _ => none
    | _ =>
      let n : Int := Int.ofNat (digitsToNat digits 0)
      some (.jnum (if neg then -n else n), rest)

mutual

/-- Fuel-indexed recursive-descent JSON value parser. -/
def parseJVal : Nat → List Char → Option (JValue × List Char)
  | 0, _ => none
  | fuel + 1, cs0 =>
    match skipWs cs0 with
    | [] => none
    | c :: rest =>
      if c = 'n' then
        match rest with
        | 'u' :: 'l' :: 'l' :: r => some (.jnull, r)
        | _ => none
      else if c = 't' then
        match rest with
        | 'r' :: 'u' :: 'e' :: r => some (.jbool true, r)
        | _ => none
      else if c = 'f' then
        match rest with
        | 'a' :: 'l' :: 's' :: 'e' :: r => some (.jbool false, r)
        | _ => none
      else if c = '"' then
        (parseJStrChars rest).map fun p => (.jstr (String.mk p.1), p.2)
      else if c = '[' then
        match skipWs rest with
        | ']' :: r2 => some (.jarr [], r2)
        | r1 => parseJArrTail fuel r1 []
      else if c = '\x7b' then
        match skipWs rest with
        | '\x7d' :: r2 => some (.jobj [], r2)
        | r1 => parseJObjTail fuel r1 []
      else if c = '-' ∨ c.isDigit then parseJNum (c :: rest)
      else none

/-- Parse the items of a non-empty JSON array (opening bracket already
consumed), accumulating parsed items. -/
def parseJArrTail : Nat → List Char → List JValue → Option (JValue × List Char)
  | 0, _, _ => none
  | fuel + 1, cs, acc =>
    match parseJVal fuel cs with
    | none => none
    | some (v, r) =>
      match skipWs r with
      | ',' :: r2 => parseJArrTail fuel r2 (acc ++ [v])
      | ']' :: r2 => some (.jarr (acc ++ [v]), r2)
      | _ => none

/-- Parse the members of a non-empty JSON object (opening brace already
consumed), accumulating parsed key/value pairs. -/
def parseJObjTail : Nat → List Char → List (String × JValue) → Option (JValue × List Char)
  | 0, _, _ => none
  | fuel + 1, cs, acc =>
    match skipWs cs with
    | '"' :: r =>
      match parseJStrChars r with
      | none => none
      | some (k, r2) =>
        match skipWs r2 with
        | ':' :: r3 =>
          match parseJVal fuel r3 with
          | none => none
          | some (v, r4) =>
            match skipWs r4 with
            | ',' :: r5 => parseJObjTail fuel r5 (acc ++ [(String.mk k, v)])
            | '\x7d' :: r5 => some (.jobj (acc ++ [(String.mk k, v)]), r5)
            | _ => none
        | _ => none
    | _ => none

end

/-- Model of `JSON.parse`: parses the whole string as one JSON value
(`none` models a thrown `SyntaxError`). -/
def jparse (s : String) : Option JValue :=
  let cs := s.toList
  match parseJVal (cs.length + 1) cs with
  | some (v, r) => if (skipWs r).isEmpty then some v else none
  | none => none

/-! ## JSON serialization (model of `JSON.stringify`) -/

/-- Escape one character for a JSON string literal. -/
def jsEscapeChar (c : Char) : String :=
  if c = '"' then "\\\""
  else if c = '\\' then "\\\\"
  else if c = '\n' then "\\n"
  else if c = '\r' then "\\r"
  else if c = '\t' then "\\t"
  else if c = Char.ofNat 8 then "\\b"
  else if c = Char.ofNat 12 then "\\f"
  else if c.toNat < 32 then
    let h := fun (n : Nat) => String.singleton (if n < 10 then Char.ofNat ('0'.toNat + n) else Char.ofNat ('a'.toNat + n - 10))
    "\\u00" ++ h (c.toNat / 16) ++ h (c.toNat % 16)
  else String.singleton c

/-- Serialize a string as a JSON string literal. -/
def jsEscape (s : String) : String :=
  "\"" ++ String.join (s.toList.map jsEscapeChar) ++ "\""

mutual

/-- Model of `JSON.stringify` on JSON values. -/
def jStringify : JValue → String
  | .jnull => "null"
  | .jbool b => if b then "true" else "false"
  | .jnum n => toString n
  | .jstr s => jsEscape s
  | .jarr items => "[" ++ String.intercalate "," (jStringifyList items) ++ "]"
  | .jobj fields => "\x7b" ++ String.intercalate "," (jStringifyFields fields) ++ "\x7d"

/-- Serialize array items. -/
def jStringifyList : List JValue → List String
  | [] => []
  | v :: rest => jStringify v :: jStringifyList rest

/-- Serialize object members. -/
def jStringifyFields : List (String × JValue) → List String
  | [] => []
  | (k, v) :: rest => (jsEscape k ++ ":" ++ jStringify v) :: jStringifyFields rest

end

end AICodeReviewer

namespace AICodeReviewer

/-! ## Data model (src/types.ts) -/

/-- File status union from `types.ts` (`PRFile.status`). -/
inductive FileStatus where
  | added | removed | modified | renamed | copied | changed | unchanged
deriving Repr, DecidableEq, Inhabited

/-- `PRFile` from `types.ts`.  `patch` is optional, as in the source. -/
structure PRFile where
  sha : String
  filename : String
  status : FileStatus
  additions : Nat
  deletions : Nat
  changes : Nat
  patch : Option String
  blob_url : String
  raw_url : String
  contents_url : String
  previous_filename : Option String
deriving Repr, DecidableEq, Inhabited

/-- Issue severity union from `types.ts`. -/
inductive Severity where
  | error | warning | info | suggestion
deriving Repr, DecidableEq, Inhabited

/-- `ReviewCategory` union from `types.ts`. -/
inductive ReviewCategory where
  | largeFile | debugStatement | todoComment | security | complexity
  | naming | duplicateCode | mergeConflict | bestPractice | errorHandling
  | performance
deriving Repr, DecidableEq, Inhabited

/-- `ReviewIssue` from `types.ts`. -/
structure ReviewIssue where
  id : String
  file : String
  line : Int
  endLine : Option Int
  severity : Severity
  category : ReviewCategory
  message : String
  snippet : Option String
  suggestion : Option String
deriving Repr, DecidableEq, Inhabited

/-- `ReviewSummary` from `types.ts`. -/
structure ReviewSummary where
  totalFiles : Nat
  totalIssues : Nat
  errors : Nat
  warnings : Nat
  info : Nat
  suggestions : Nat
deriving Repr, DecidableEq, Inhabited

/-- `FileReviewResult` from `types.ts` (its `status` field is assigned
directly from `PRFile.status` by the orchestrator, so it is modelled
with the same enumeration). -/
structure FileReviewResult where
  filename : String
  status : FileStatus
  additions : Nat
  deletions : Nat
  issues : List ReviewIssue
deriving Repr, DecidableEq, Inhabited

/-- Overall review verdict union. -/
inductive ReviewStatus where
  | pass | warn | fail
deriving Repr, DecidableEq, Inhabited

/-- `ReviewResult` from `types.ts`. -/
structure ReviewResult where
  prNumber : Nat
  prTitle : String
  branchName : String
  timestamp : String
  summary : ReviewSummary
  issues : List ReviewIssue
  files : List FileReviewResult
  status : ReviewStatus
deriving Repr, DecidableEq, Inhabited

/-! ## Normalizers (aiReviewService.ts lines 361-384) -/

/-- Case-insensitive severity synonym table (`normalizeSeverity`), after
the raw value has been coerced to a string. -/
def normalizeSeverityStr (s : String) : Severity :=
  let l := jsToLower s
  if l = "error" ∨ l = "critical" ∨ l = "high" then .error
  else if l = "warning" ∨ l = "warn" ∨ l = "medium" then .warning
  else if l = "info" ∨ l = "low" ∨ l = "information" then .info
  else if l = "suggestion" ∨ l = "hint" ∨ l = "enhancement" then .suggestion
  else .info

/-- Case-insensitive category synonym table (`normalizeCategory`). -/
def normalizeCategoryStr (c : String) : ReviewCategory :=
  let l := jsToLower c
  if l = "security" then .security
  else if l = "performance" then .performance
  else if l = "error-handling" ∨ l = "error handling" then .errorHandling
  else if l = "best-practice" ∨ l = "best-practices" ∨ l = "best practice" then .bestPractice
  else if l = "complexity" then .complexity
  else if l = "naming" then .naming
  else if l = "debug-statement" ∨ l = "debug" ∨ l = "debug-statements" then .debugStatement
  else if l = "todo-comment" ∨ l = "todo" then .todoComment
  else if l = "large-file" then .largeFile
  else if l = "merge-conflict" then .mergeConflict
  else if l = "duplicate-code" then .duplicateCode
  else if l = "code-quality" then .bestPractice
  else .bestPractice

/-- Models the JavaScript expression `(x || '')` followed by a string
method call: a falsy value becomes the empty string, a truthy string is
kept, and a truthy non-string raises a `TypeError` (modelled as
`Except.error`), since it has no `toLowerCase` method. -/
def jAsLooseStr : Option JValue → Except Unit String
  | none => .ok ""
  | some v =>
    if jTruthy v then
      match v with
      | .jstr s => .ok s
      | _ => .error ()
    else .ok ""

end AICodeReviewer

namespace AICodeReviewer

/-! ## Response parsing (aiReviewService.ts lines 327-357) -/

/-- Model of `cleaned.replace(/^```(?:json)?\n?/, '')`, applied when
`cleaned` starts with a fence: drop the backtick fence, an optional
`json` tag, and an optional newline. -/
def stripLeadFence (s : String) : String :=
  let r := strDrop s 3
  let r := if charsHasPre "json".toList r.toList then strDrop r 4 else r
  if charsHasPre "\n".toList r.toList then strDrop r 1 else r

/-- Model of `cleaned.replace(/\n?```$/, '')`: drop a trailing fence
preceded by an optional newline. -/
def stripTailFence (s : String) : String :=
  if charsHasPre "```\n".toList s.toList.reverse then strDropRight s 4
  else if charsHasPre "```".toList s.toList.reverse then strDropRight s 3
  else s

/-- Lines 329-333: trim the payload and strip surrounding markdown code
fences when (and only when) the trimmed payload starts with a fence. -/
def cleanedResponse (response : String) : String :=
  let cleaned := jsTrim response
  if charsHasPre "```".toList cleaned.toList then
    stripTailFence (stripLeadFence cleaned)
  else cleaned

/-- Model of `cleaned.match(/\[[\s\S]*\]/)`: the regex is greedy, so the
match (when it exists) spans from the first opening bracket to the last
closing bracket at a later position. -/
def greedyArrayMatch (s : String) : Option String :=
  let cs := s.toList
  match cs.indexOf? '[', cs.reverse.indexOf? ']' with
  | some i, some jr =>
    let j := cs.length - 1 - jr
    if i < j then some (String.mk ((cs.drop i).take (j - i + 1))) else none
  | _, _ => none

/-- One element of the `.map` in `parseAIResponse` (lines 343-352),
given the element and its index in the filtered list.  The severity and
category reads can raise a `TypeError` (truthy non-string), which the
surrounding try/catch turns into an empty result. -/
def parseAIIssueItem (item : JValue) (idx : Nat) : Except Unit ReviewIssue := do
  let fileStr := match jGet item "file" with
    | some v => if jTruthy v then jToString v else "unknown"
    | none => "unknown"
  let lineStr := match jGet item "line" with
    | some v => if jTruthy v then jToString v else toString idx
    | none => toString idx
  let sevStr ← jAsLooseStr (jGet item "severity")
  let catStr ← jAsLooseStr (jGet item "category")
  let msgStr := match jGet item "message" with
    | some v => jToString v
    | none => ""
  pure
    { id := "ai-" ++ fileStr ++ "-" ++ lineStr ++ "-" ++ toString idx
      file := fileStr
      line := match jGet item "line" with
        | some (.jnum n) => n
        | _ => 0
      endLine := none
      severity := normalizeSeverityStr sevStr
      category := normalizeCategoryStr catStr
      message := msgStr
      snippet := match jGet item "snippet" with
        | some v => if jTruthy v then some (jToString v) else none
        | none => none
      suggestion := match jGet item "suggestion" with
        | some v => if jTruthy v then some (jToString v) else none
        | none => none }

/-- The filter predicate `item => item && item.message`. -/
def keepAIItem (item : JValue) : Bool :=
  jTruthy item &&
    (match jGet item "message" with
     | some m => jTruthy m
     | none => false)

/-- The filtered `.map` over parsed array elements; the index is the
position within the filtered list, as in the source. -/
def parseAIItems (items : List JValue) : Except Unit (List ReviewIssue) :=
  ((items.filter keepAIItem).enum).mapM fun p => parseAIIssueItem p.2 p.1

/-- `parseAIResponse` (lines 327-357).  The whole body sits inside a
try/catch whose handler returns the empty list, so a failed JSON parse,
a non-array value, or a modelled `TypeError` all yield zero issues. -/
def parseAIResponse (response : String) : List ReviewIssue :=
  let cleaned := cleanedResponse response
  match greedyArrayMatch cleaned with
  | none => []
  | some m =>
    match jparse m with
    | some (.jarr items) =>
      match parseAIItems items with
      | .ok issues => issues
      | .error _ => []
    | some _ => []
    | none => []

/-- Modelled from the spec (section 4.2, response validation): locate
the FIRST SYNTACTICALLY COMPLETE JSON array substring — i.e. starting
from the first position where a complete JSON array can be parsed, take
that shortest complete array.  This is the definition the spec words
describe; it is compared against `parseAIResponse`, which embeds the
source regex. -/
def firstCompleteArrayFrom : List Char → Option JValue
  | [] => none
  | c :: rest =>
    match (if c = '[' then
             match parseJVal (rest.length + 2) (c :: rest) with
             | some (.jarr items, _) => some (JValue.jarr items)
             | _ => none
           else none) with
    | some v => some v
    | none => firstCompleteArrayFrom rest

/-- Spec-worded response parser: fence stripping as specified, then the
first syntactically complete JSON array substring, then the same
element validation as the source. -/
def specParseAIResponse (response : String) : List ReviewIssue :=
  let cleaned := cleanedResponse response
  match firstCompleteArrayFrom cleaned.toList with
  | some (.jarr items) =>
    match parseAIItems items with
    | .ok issues => issues
    | .error _ => []
  | _ => []

/-! ## File batching (aiReviewService.ts lines 204-221) -/

/-- `file.patch?.length || 0`. -/
def patchLen (f : PRFile) : Nat :=
  (f.patch.map String.length).getD 0

/-- The loop body of `batchFiles`: walk the files, close the current
batch when adding the next file would exceed `maxChars` and the current
batch is non-empty; finally flush the current batch and return `[[]]`
when no batch was produced. -/
def batchLoop (maxChars : Nat) : List PRFile → List (List PRFile) → List PRFile → Nat → List (List PRFile)
  | [], batches, current, _ =>
    let batches := if current.length > 0 then batches ++ [current] else batches
    if batches.length > 0 then batches else [[]]
  | f :: rest, batches, current, currentSize =>
    let patchSize := patchLen f
    if currentSize + patchSize > maxChars ∧ current.length > 0 then
      batchLoop maxChars rest (batches ++ [current]) [f] patchSize
    else
      batchLoop maxChars rest batches (current ++ [f]) (currentSize + patchSize)

/-- `batchFiles` (lines 204-221). -/
def batchFiles (files : List PRFile) (maxChars : Nat) : List (List PRFile) :=
  batchLoop maxChars files [] [] 0

end AICodeReviewer

namespace AICodeReviewer

/-! ## Remote call model (aiReviewService.ts lines 225-323) -/

/-- Observable outcome of one HTTPS attempt against the Groq endpoint:
a response with a status code and body, a transport error, or the 90s
timeout firing. -/
inductive GroqHttp where
  | response (statusCode : Nat) (data : String)
  | netError (msg : String)
  | timedOut
deriving Repr, Inhabited

/-- Error-message construction for a non-200 response (lines 288-297):
`Groq API <code>` followed by `errJson?.error?.message` when the body
parses as JSON and that chain is truthy, else the first 300 characters
of the body. -/
def groqErrMsg (statusCode : Nat) (data : String) : String :=
  let base := "Groq API " ++ toString statusCode
  match jparse data with
  | some v =>
    match (jGet v "error").bind (fun e => jGet e "message") with
    | some mv =>
      if jTruthy mv then base ++ ": " ++ jToString mv
      else base ++ ": " ++ strTake data 300
    | none => base ++ ": " ++ strTake data 300
  | none => base ++ ": " ++ strTake data 300

/-- Array/object indexing `?.[0]` (indexing into primitives is not
exercised by the embedded code and is modelled as `undefined`). -/
def jIndex (v : JValue) (i : Nat) : Option JValue :=
  match v with
  | .jarr items => items.get? i
  | .jobj _ => jGet v (toString i)
  | _ => none

/-- `callGroq` (lines 253-323) as a function of the attempt outcome.
On a 200 response the body is parsed and
`json?.choices?.[0]?.message?.content || ''` extracted; an empty or
missing content rejects with `Empty response from Groq`.  The model
fixes the interpolated exception text of a failed body parse to the
exception name, which the retry logic never inspects. -/
def callGroq (r : GroqHttp) : Except String String :=
  match r with
  | .netError m => .error m
  | .timedOut => .error "Groq API timeout (90s)"
  | .response code data =>
    if code ≠ 200 then .error (groqErrMsg code data)
    else
      match jparse data with
      | none => .error "Failed to parse Groq response: SyntaxError"
      | some json =>
        match ((jGet json "choices").bind (fun c => jIndex c 0)).bind
            (fun c0 => (jGet c0 "message").bind (fun m => jGet m "content")) with
        | some v => if jTruthy v then .ok (jToString v) else .error "Empty response from Groq"
        | none => .error "Empty response from Groq"

/-- The retry loop of `callGroqWithRetry` (lines 225-243), also
recording the backoff waits (in seconds) it performs.  The retry
condition is the source condition: the error MESSAGE contains the
substring `429` (`err.message?.includes(429)`) and a retry attempt
remains.  The loop `for attempt in 1..maxRetries` is driven by the
number of remaining iterations (`remaining = maxRetries - attempt + 1`),
so the recursion is structural; leaving the loop with `remaining = 0`
reaches the dead `max retries exhausted` throw of line 242. -/
def callGroqWithRetryGo (attempts : Nat → GroqHttp) (maxRetries : Nat) :
    Nat → Nat → Except String String × List Nat
  | _, 0 => (.error "Groq API: max retries exhausted", [])
  | attempt, remaining + 1 =>
    match callGroq (attempts attempt) with
    | .ok s => (.ok s, [])
    | .error e =>
      if strIncludes e "429" ∧ attempt < maxRetries then
        let p := callGroqWithRetryGo attempts maxRetries (attempt + 1) remaining
        (p.1, attempt * 10 :: p.2)
      else (.error e, [])

/-- `callGroqWithRetry(prompt, maxRetries)`: attempts are numbered from
1, exactly as the source loop. -/
def callGroqWithRetry (attempts : Nat → GroqHttp) (maxRetries : Nat) :
    Except String String × List Nat :=
  callGroqWithRetryGo attempts maxRetries 1 maxRetries

/-! ## Orchestration (aiReviewService.ts lines 56-140) -/

/-- The batch loop of `reviewPullRequest` (lines 79-97): iterate over
the batches in order, collect parsed issues from successful calls,
record the failure flag and last error message from failed calls, and
count the remote calls performed (one `callGroqWithRetry` per loop
iteration, with no emptiness check on the batch). -/
def runBatchesAux (attemptsFor : Nat → Nat → GroqHttp) :
    Nat → List (List PRFile) → List ReviewIssue → Bool → String → Nat →
    List ReviewIssue × Bool × String × Nat
  | _, [], allIssues, apiErr, lastErr, calls => (allIssues, apiErr, lastErr, calls)
  | bIdx, _batch :: rest, allIssues, apiErr, lastErr, calls =>
    match (callGroqWithRetry (attemptsFor bIdx) 3).1 with
    | .ok response =>
      runBatchesAux attemptsFor (bIdx + 1) rest (allIssues ++ parseAIResponse response)
        apiErr lastErr (calls + 1)
    | .error e =>
      runBatchesAux attemptsFor (bIdx + 1) rest allIssues true e (calls + 1)

/-- Entry point of the batch loop. -/
def runBatches (attemptsFor : Nat → Nat → GroqHttp) (batches : List (List PRFile)) :
    List ReviewIssue × Bool × String × Nat :=
  runBatchesAux attemptsFor 0 batches [] false "" 0

/-- The reviewable-file filter (lines 69-71):
`f.status !== removed && f.patch && f.patch.length > 0`. -/
def reviewableOf (files : List PRFile) : List PRFile :=
  files.filter fun f =>
    decide (f.status ≠ FileStatus.removed) &&
      (match f.patch with
       | some p => decide (p.length > 0)
       | none => false)

/-- The synthetic issue pushed when every issue source failed
(lines 100-110). -/
def mkApiErrorIssue (filename lastApiError : String) : ReviewIssue :=
  { id := "ai-api-error"
    file := filename
    line := 0
    endLine := none
    severity := .error
    category := .bestPractice
    message := "AI review failed: " ++ lastApiError ++ ". Check your Groq API key and try again."
    snippet := none
    suggestion := some "Get a free API key at https://console.groq.com/keys" }

/-- `buildSummary` (lines 386-395). -/
def buildSummary (issues : List ReviewIssue) (totalFiles : Nat) : ReviewSummary :=
  { totalFiles := totalFiles
    totalIssues := issues.length
    errors := (issues.filter fun i => decide (i.severity = Severity.error)).length
    warnings := (issues.filter fun i => decide (i.severity = Severity.warning)).length
    info := (issues.filter fun i => decide (i.severity = Severity.info)).length
    suggestions := (issues.filter fun i => decide (i.severity = Severity.suggestion)).length }

/-- The issues list of the outcome after the synthetic-error step
(lines 100-110): append the synthetic issue exactly when some call
failed, no issue was collected, and a reviewable file exists.
`reviewableFiles[0].filename` is modelled with a default that is dead
under the guard. -/
def finalIssues (collected : List ReviewIssue) (apiErrorOccurred : Bool)
    (lastApiError : String) (reviewableFiles : List PRFile) : List ReviewIssue :=
  if apiErrorOccurred = true ∧ collected.length = 0 ∧ reviewableFiles.length > 0 then
    collected ++ [mkApiErrorIssue ((reviewableFiles.head?.map (·.filename)).getD "") lastApiError]
  else collected

/-- `reviewPullRequest` (lines 56-140).  Network effects enter through
`attemptsFor`: the outcome of HTTPS attempt `a` for batch `b` is
`attemptsFor b a`.  The wall-clock timestamp enters as `nowIso`.
`enabledCategories` and `customRules` only shape the prompt text, which
no claim inspects. -/
def reviewPullRequest (prNumber : Nat) (prTitle branchName headSha : String)
    (files : List PRFile) (enabledCategories customRules : List String)
    (attemptsFor : Nat → Nat → GroqHttp) (nowIso : String) : ReviewResult :=
  let reviewableFiles := reviewableOf files
  let batches := batchFiles reviewableFiles 25000
  let r := runBatches attemptsFor batches
  let allIssues := finalIssues r.1 r.2.1 r.2.2.1 reviewableFiles
  let fileResults := files.map fun file =>
    { filename := file.filename
      status := file.status
      additions := file.additions
      deletions := file.deletions
      issues := allIssues.filter fun i => decide (i.file = file.filename) : FileReviewResult }
  let summary := buildSummary allIssues files.length
  let status := if summary.errors > 0 then ReviewStatus.fail
    else if summary.warnings > 0 then ReviewStatus.warn
    else ReviewStatus.pass
  { prNumber := prNumber
    prTitle := prTitle
    branchName := branchName
    timestamp := nowIso
    summary := summary
    issues := allIssues
    files := fileResults
    status := status }

end AICodeReviewer

namespace AICodeReviewer

/-! ## Webhook gateway (src/webhookServer.ts) -/

/-- The slice of an inbound HTTP request that `handleRequest` inspects:
method, path, the two headers it reads, and the accumulated body. -/
structure HttpRequest where
  method : String
  url : String
  signatureHeader : Option String
  eventHeader : Option String
  body : String
deriving Repr, DecidableEq, Inhabited

/-- An HTTP response as written by `res.writeHead`/`res.end`. -/
structure HttpResponse where
  status : Nat
  body : String
deriving Repr, DecidableEq, Inhabited

/-- Observable outcome of one `handleRequest` run: the response written
(if any was written before an uncaught exception), the events fired to
subscribers, and whether an uncaught exception escaped the handler. -/
structure HandleResult where
  response : Option HttpResponse
  emitted : List JValue
  crashed : Bool
deriving Repr, Inhabited

/-- `verifySignature` (lines 161-166), with the HMAC-SHA256 hex digest
abstracted as `hmacHex` (a 64-hex-character digest in reality).  A
falsy signature returns `false`; otherwise
`crypto.timingSafeEqual(Buffer.from(signature), Buffer.from(digest))`
compares UTF-8 buffers: with equal byte lengths it decides string
equality (UTF-8 encoding is injective), and with unequal byte lengths
it THROWS, modelled as `Except.error`. -/
def verifySignature (hmacHex : String → String → String) (secret payload : String)
    (signature : Option String) : Except Unit Bool :=
  match signature with
  | none => .ok false
  | some sig =>
    if sig = "" then .ok false
    else
      let digest := "sha256=" ++ hmacHex secret payload
      if sig.utf8ByteSize = digest.utf8ByteSize then .ok (decide (sig = digest))
      else .error ()

/-- The action allow-list of line 131. -/
def relevantActions : List String := ["opened", "synchronize", "reopened", "ready_for_review"]

/-- Build a JSON response. -/
def mkJsonRes (status : Nat) (body : JValue) : HttpResponse :=
  { status := status, body := jStringify body }

/-- `handleRequest` (lines 81-156).  The signature-verification call is
outside the try/catch, so its modelled throw (wrong-length header)
escapes before any response is written; inside the try, reading
`payload.action` off a `null` payload throws and is caught (400), while
reading `payload.pull_request.title` after the 200 response has been
written throws, is caught, and the catch handler then attempts
`res.writeHead(400)` on an already-finished response, which rethrows —
an uncaught exception after the 200 response and the event emission. -/
def handleRequest (hmacHex : String → String → String) (secret : String)
    (nowIso : String) (req : HttpRequest) : HandleResult :=
  if req.method ≠ "POST" then
    { response := some (mkJsonRes 405 (.jobj [("error", .jstr "Method not allowed")]))
      emitted := [], crashed := false }
  else if req.url = "/health" then
    { response := some (mkJsonRes 200 (.jobj [("status", .jstr "ok"), ("timestamp", .jstr nowIso)]))
      emitted := [], crashed := false }
  else if req.url ≠ "/webhook" ∧ req.url ≠ "/" then
    { response := some (mkJsonRes 404 (.jobj [("error", .jstr "Not found")]))
      emitted := [], crashed := false }
  else
    match (if secret ≠ "" then verifySignature hmacHex secret req.body req.signatureHeader
           else .ok true) with
    | .error _ => { response := none, emitted := [], crashed := true }
    | .ok false =>
      { response := some (mkJsonRes 401 (.jobj [("error", .jstr "Invalid signature")]))
        emitted := [], crashed := false }
    | .ok true =>
      if req.eventHeader ≠ some "pull_request" then
        let et := req.eventHeader.getD "undefined"
        { response := some (mkJsonRes 200 (.jobj [("message", .jstr ("Event " ++ sq ++ et ++ sq ++ " ignored"))]))
          emitted := [], crashed := false }
      else
        match jparse req.body with
        | none =>
          { response := some (mkJsonRes 400 (.jobj [("error", .jstr "Invalid JSON payload")]))
            emitted := [], crashed := false }
        | some payload =>
          match payload with
          | .jnull =>
            { response := some (mkJsonRes 400 (.jobj [("error", .jstr "Invalid JSON payload")]))
              emitted := [], crashed := false }
          | _ =>
            let actionV := jGet payload "action"
            let isRelevant := match actionV with
              | some (.jstr a) => relevantActions.contains a
              | _ => false
            if isRelevant then
              let respBody : JValue := .jobj
                ([("message", .jstr "Review triggered")] ++
                  (match jGet payload "number" with
                   | some v => [("pr", v)]
                   | none => []) ++
                  (match actionV with
                   | some v => [("action", v)]
                   | none => []))
              let crashed := match jGet payload "pull_request" with
                | some .jnull => true
                | none => true
                | some _ => false
              { response := some (mkJsonRes 200 respBody)
                emitted := [payload], crashed := crashed }
            else
              let aStr := match actionV with
                | some v => jToString v
                | none => "undefined"
              { response := some (mkJsonRes 200 (.jobj [("message", .jstr ("PR action " ++ sq ++ aStr ++ sq ++ " ignored"))]))
                emitted := [], crashed := false }

end AICodeReviewer

namespace AICodeReviewer

/-! ## Abbreviations for the orchestrator pipeline stages -/

/-- The batch-loop result of one `reviewPullRequest` run (lines 74-97). -/
def reviewRun (attemptsFor : Nat → Nat → GroqHttp) (files : List PRFile) :
    List ReviewIssue × Bool × String × Nat :=
  runBatches attemptsFor (batchFiles (reviewableOf files) 25000)

/-- The final issues list of one `reviewPullRequest` run (lines 100-110). -/
def reviewIssuesOf (attemptsFor : Nat → Nat → GroqHttp) (files : List PRFile) :
    List ReviewIssue :=
  finalIssues (reviewRun attemptsFor files).1 (reviewRun attemptsFor files).2.1
    (reviewRun attemptsFor files).2.2.1 (reviewableOf files)

theorem reviewPullRequest_issues (p : Nat) (t b h : String) (fs : List PRFile)
    (ec cr : List String) (o : Nat → Nat → GroqHttp) (n : String) :
    (reviewPullRequest p t b h fs ec cr o n).issues = reviewIssuesOf o fs := rfl

theorem reviewPullRequest_summary (p : Nat) (t b h : String) (fs : List PRFile)
    (ec cr : List String) (o : Nat → Nat → GroqHttp) (n : String) :
    (reviewPullRequest p t b h fs ec cr o n).summary =
      buildSummary (reviewIssuesOf o fs) fs.length := rfl

theorem reviewPullRequest_files (p : Nat) (t b h : String) (fs : List PRFile)
    (ec cr : List String) (o : Nat → Nat → GroqHttp) (n : String) :
    (reviewPullRequest p t b h fs ec cr o n).files =
      fs.map (fun file =>
        { filename := file.filename
          status := file.status
          additions := file.additions
          deletions := file.deletions
          issues := (reviewIssuesOf o fs).filter fun i => decide (i.file = file.filename) }) := rfl

theorem reviewPullRequest_status (p : Nat) (t b h : String) (fs : List PRFile)
    (ec cr : List String) (o : Nat → Nat → GroqHttp) (n : String) :
    (reviewPullRequest p t b h fs ec cr o n).status =
      (if (buildSummary (reviewIssuesOf o fs) fs.length).errors > 0 then ReviewStatus.fail
       else if (buildSummary (reviewIssuesOf o fs) fs.length).warnings > 0 then ReviewStatus.warn
       else ReviewStatus.pass) := rfl

/-! ## Batching lemmas -/

theorem batchLoop_flatten (maxChars : Nat) (files : List PRFile) :
    ∀ (batches : List (List PRFile)) (current : List PRFile) (size : Nat),
      (batchLoop maxChars files batches current size).flatten =
        batches.flatten ++ current ++ files := by
  induction files with
  | nil =>
    intro batches current size
    simp only [batchLoop]
    by_cases hc : current.length > 0
    · simp [hc]
    · have hc0 : current = [] := by
        cases current with
        | nil => rfl
        | cons x xs => simp at hc
      subst hc0
      simp only [hc, if_neg]
      by_cases hb : batches.length > 0
      · simp [hb]
      · have hb0 : batches = [] := List.length_eq_zero.mp (Nat.le_zero.mp (Nat.not_lt.mp hb))
        subst hb0
        simp
  | cons f rest ih =>
    intro batches current size
    simp only [batchLoop]
    split
    · rw [ih]
      simp
    · rw [ih]
      simp

theorem batchLoop_ne_nil (maxChars : Nat) (files : List PRFile) :
    ∀ (batches : List (List PRFile)) (current : List PRFile) (size : Nat),
      (∀ b ∈ batches, b ≠ []) → (current ≠ [] ∨ files ≠ []) →
      ∀ b ∈ batchLoop maxChars files batches current size, b ≠ [] := by
  induction files with
  | nil =>
    intro batches current size hb hcf
    have hc : current ≠ [] := by
      rcases hcf with h | h
      · exact h
      · exact absurd rfl h
    have hclen : current.length > 0 := List.length_pos.mpr hc
    simp only [batchLoop, if_pos hclen]
    have : (batches ++ [current]).length > 0 := by simp
    rw [if_pos this]
    intro b hbmem
    rcases List.mem_append.mp hbmem with h | h
    · exact hb b h
    · rw [List.mem_singleton.mp h]; exact hc
  | cons f rest ih =>
    intro batches current size hb hcf
    simp only [batchLoop]
    split
    · rename_i hcond
      refine ih (batches ++ [current]) [f] (patchLen f) ?_ ?_
      · intro b hbmem
        rcases List.mem_append.mp hbmem with h | h
        · exact hb b h
        · rw [List.mem_singleton.mp h]
          exact List.length_pos.mp hcond.2
      · left; simp
    · refine ih batches (current ++ [f]) (size + patchLen f) hb ?_
      left; simp

/-- C3: batching filters out removed/empty-diff files then greedily
groups the remainder in input order; consequently the batches
concatenate back to the reviewable files in order (each reviewable file
in exactly one batch, order preserved), every batch is non-empty when a
reviewable file exists, and three files with 10,000-character diffs
yield the batches [f1, f2] and [f3]. -/
theorem batching_greedy_spec (files : List PRFile) :
    (batchFiles (reviewableOf files) 25000).flatten = reviewableOf files ∧
    (reviewableOf files ≠ [] →
      ∀ b ∈ batchFiles (reviewableOf files) 25000, b ≠ []) ∧
    (∀ f1 f2 f3 : PRFile, patchLen f1 = 10000 → patchLen f2 = 10000 → patchLen f3 = 10000 →
      batchFiles [f1, f2, f3] 25000 = [[f1, f2], [f3]]) := by
  refine ⟨?_, ?_, ?_⟩
  · rw [batchFiles, batchLoop_flatten]
    simp
  · intro hne
    exact batchLoop_ne_nil 25000 (reviewableOf files) [] [] 0 (by simp) (Or.inr hne)
  · intro f1 f2 f3 h1 h2 h3
    simp [batchFiles, batchLoop, h1, h2, h3]

end AICodeReviewer

namespace AICodeReviewer

/-! ## Concrete fixtures -/

/-- A 10,000-character diff body. -/
def bigPatch10k : String := String.mk (List.replicate 10000 'a')

theorem bigPatch10k_length : bigPatch10k.length = 10000 := by
  rw [bigPatch10k]
  exact List.length_replicate 10000 'a'

/-- Builds a `PRFile` fixture. -/
def mkFile (name : String) (st : FileStatus) (patch : Option String) : PRFile :=
  { sha := "", filename := name, status := st, additions := 1, deletions := 1,
    changes := 2, patch := patch, blob_url := "", raw_url := "", contents_url := "",
    previous_filename := none }

def wf1 : PRFile := mkFile "f1.ts" .modified (some bigPatch10k)
def wf2 : PRFile := mkFile "f2.ts" .modified (some bigPatch10k)
def wf3 : PRFile := mkFile "f3.ts" .modified (some bigPatch10k)

theorem patchLen_wf1 : patchLen wf1 = 10000 := by
  simp [patchLen, wf1, mkFile, bigPatch10k_length]

theorem patchLen_wf2 : patchLen wf2 = 10000 := by
  simp [patchLen, wf2, mkFile, bigPatch10k_length]

theorem patchLen_wf3 : patchLen wf3 = 10000 := by
  simp [patchLen, wf3, mkFile, bigPatch10k_length]

theorem reviewable_wf1 : reviewableOf [wf1] = [wf1] := by
  simp [reviewableOf, wf1, mkFile, List.filter, bigPatch10k_length]

/-- Witness for C3 at concrete inputs: three modified files with
10,000-character diffs batch as [[f1, f2], [f3]], and with the
single-file change-set [wf1] every batch is non-empty. -/
theorem batching_greedy_spec_witness :
    batchFiles [wf1, wf2, wf3] 25000 = [[wf1, wf2], [wf3]] ∧
    (∀ b ∈ batchFiles (reviewableOf [wf1]) 25000, b ≠ []) := by
  constructor
  · exact (batching_greedy_spec []).2.2 wf1 wf2 wf3 patchLen_wf1 patchLen_wf2 patchLen_wf3
  · exact (batching_greedy_spec [wf1]).2.1 (by rw [reviewable_wf1]; simp)

/-- C10: `summary.totalFiles` counts every file of the input change-set
(`files.length`), including removed files and files with no diff text
that were excluded from review. -/
theorem summary_totalFiles_all_files (p : Nat) (t b h : String) (fs : List PRFile)
    (ec cr : List String) (o : Nat → Nat → GroqHttp) (n : String) :
    (reviewPullRequest p t b h fs ec cr o n).summary.totalFiles = fs.length := rfl

/-- C1: the outcome status is `fail` iff the summary counts an error,
else `warn` iff it counts a warning, else `pass`. -/
theorem status_matches_severity_counts (p : Nat) (t b h : String) (fs : List PRFile)
    (ec cr : List String) (o : Nat → Nat → GroqHttp) (n : String) :
    ((reviewPullRequest p t b h fs ec cr o n).status = ReviewStatus.fail ↔
      0 < (reviewPullRequest p t b h fs ec cr o n).summary.errors) ∧
    ((reviewPullRequest p t b h fs ec cr o n).status = ReviewStatus.warn ↔
      ((reviewPullRequest p t b h fs ec cr o n).summary.errors = 0 ∧
        0 < (reviewPullRequest p t b h fs ec cr o n).summary.warnings)) ∧
    ((reviewPullRequest p t b h fs ec cr o n).status = ReviewStatus.pass ↔
      ((reviewPullRequest p t b h fs ec cr o n).summary.errors = 0 ∧
        (reviewPullRequest p t b h fs ec cr o n).summary.warnings = 0)) := by
  rw [reviewPullRequest_status, reviewPullRequest_summary]
  rcases Nat.eq_zero_or_pos (buildSummary (reviewIssuesOf o fs) fs.length).errors with he | he
  · rcases Nat.eq_zero_or_pos (buildSummary (reviewIssuesOf o fs) fs.length).warnings with hw | hw
    · simp [he, hw]
    · have hw2 : (buildSummary (reviewIssuesOf o fs) fs.length).warnings ≠ 0 :=
        Nat.pos_iff_ne_zero.mp hw
      simp [he, hw, hw2]
  · have he2 : (buildSummary (reviewIssuesOf o fs) fs.length).errors ≠ 0 :=
      Nat.pos_iff_ne_zero.mp he
    simp [he, he2]

end AICodeReviewer

namespace AICodeReviewer

/-! ## Partition-by-key permutation lemmas (for the perFile grouping) -/

theorem map_filter_cons_of_not_mem {α β : Type} [DecidableEq β] (key : α → β) (x : α)
    (t : List α) (ks : List β) (hx : key x ∉ ks) :
    ks.map (fun k => (x :: t).filter fun a => decide (key a = k)) =
      ks.map (fun k => t.filter fun a => decide (key a = k)) := by
  apply List.map_congr_left
  intro k hk
  have hne : decide (key x = k) = false := by
    simp only [decide_eq_false_iff_not]
    intro heq
    exact hx (heq ▸ hk)
  simp [List.filter_cons, hne]

theorem flatten_map_filter_cons_perm {α β : Type} [DecidableEq β] (key : α → β) (x : α)
    (t : List α) :
    ∀ (ks : List β), ks.Nodup → key x ∈ ks →
      (ks.map (fun k => (x :: t).filter fun a => decide (key a = k))).flatten.Perm
        (x :: (ks.map (fun k => t.filter fun a => decide (key a = k))).flatten) := by
  intro ks
  induction ks with
  | nil =>
    intro _ hx
    simp at hx
  | cons k ks ih =>
    intro hnd hx
    have hnd' := List.nodup_cons.mp hnd
    rcases List.mem_cons.mp hx with heq | hmem
    · have hnotin : key x ∉ ks := heq ▸ hnd'.1
      rw [List.map_cons, List.map_cons, List.flatten_cons, List.flatten_cons,
        map_filter_cons_of_not_mem key x t ks hnotin, List.filter_cons]
      have hdec : decide (key x = k) = true := by
        rw [heq]
        simp
      rw [hdec]
      simp only [if_pos rfl, List.cons_append]
      exact List.Perm.refl _
    · have hne : decide (key x = k) = false := by
        simp only [decide_eq_false_iff_not]
        intro heq
        exact hnd'.1 (heq ▸ hmem)
      rw [List.map_cons, List.map_cons, List.flatten_cons, List.flatten_cons,
        List.filter_cons, hne]
      simp only [Bool.false_eq_true, if_false]
      exact ((ih hnd'.2 hmem).append_left _).trans List.perm_middle

theorem flatten_map_filter_perm {α β : Type} [DecidableEq β] (key : α → β) :
    ∀ (l : List α) (ks : List β), ks.Nodup → (∀ a ∈ l, key a ∈ ks) →
      (ks.map (fun k => l.filter fun a => decide (key a = k))).flatten.Perm l := by
  intro l
  induction l with
  | nil =>
    intro ks _ _
    rw [List.perm_nil, List.flatten_eq_nil_iff]
    intro l hl
    rw [List.mem_map] at hl
    obtain ⟨k, _, hEq⟩ := hl
    rw [← hEq, List.filter_nil]
  | cons x t ih =>
    intro ks hnd hcov
    have hx : key x ∈ ks := hcov x (by simp)
    exact (flatten_map_filter_cons_perm key x t ks hnd hx).trans
      ((ih ks hnd (fun a ha => hcov a (by simp [ha]))).cons x)

end AICodeReviewer

namespace AICodeReviewer

/-! ## Claim C2: the perFile grouping -/

def removedFile : PRFile := mkFile "gone.ts" .removed (some "x")

/-- A 200 response whose content is an empty issues array. -/
def okGroqBody : String :=
  "\x7b\"choices\":[\x7b\"message\":\x7b\"content\":\"[]\"\x7d\x7d]\x7d"

/-- Oracle: every attempt of every batch succeeds with zero issues. -/
def okOracle : Nat → Nat → GroqHttp := fun _ _ => .response 200 okGroqBody

/-- C2 counterexample: a change-set whose only file has status
`removed` still gets a per-file entry in the outcome (the source loops
over ALL input files when building `fileResults`), whereas the claim
requires files with status `removed` to be omitted entirely from the
per-file list. -/
theorem removed_file_appears_in_perFile :
    (reviewPullRequest 1 "t" "b" "h" [removedFile] [] [] okOracle "now").files =
      [{ filename := "gone.ts", status := .removed, additions := 1, deletions := 1,
         issues := [] }] := by rfl

/-- C2 amended: the per-file list holds exactly one entry per input
file — REMOVED FILES INCLUDED — in input order, each entry holding
exactly the outcome issues whose file field equals that filename; when
the input filenames are distinct and every outcome issue names an input
file, the per-file issue lists partition the outcome issues with no
duplication or loss. -/
theorem perFile_partition_amended (p : Nat) (t b h : String) (fs : List PRFile)
    (ec cr : List String) (o : Nat → Nat → GroqHttp) (n : String) :
    ((reviewPullRequest p t b h fs ec cr o n).files.map (·.filename) = fs.map (·.filename)) ∧
    (∀ fr ∈ (reviewPullRequest p t b h fs ec cr o n).files,
      fr.issues = (reviewPullRequest p t b h fs ec cr o n).issues.filter
        fun i => decide (i.file = fr.filename)) ∧
    ((fs.map (·.filename)).Nodup →
      (∀ i ∈ (reviewPullRequest p t b h fs ec cr o n).issues,
        i.file ∈ fs.map (·.filename)) →
      ((reviewPullRequest p t b h fs ec cr o n).files.map (·.issues)).flatten.Perm
        (reviewPullRequest p t b h fs ec cr o n).issues) := by
  rw [reviewPullRequest_files, reviewPullRequest_issues]
  refine ⟨?_, ?_, ?_⟩
  · rw [List.map_map]
    rfl
  · intro fr hfr
    rw [List.mem_map] at hfr
    obtain ⟨file, _, hEq⟩ := hfr
    subst hEq
    rfl
  · intro hnd hcov
    have hperm := flatten_map_filter_perm (fun i : ReviewIssue => i.file)
      (reviewIssuesOf o fs) (fs.map (·.filename)) hnd hcov
    rw [List.map_map] at hperm ⊢
    exact hperm

/-- A reviewable one-file change-set. -/
def waFile : PRFile := mkFile "a.ts" .modified (some "x")

/-- A 200 response whose content is a one-element issues array naming
file `a.ts`. -/
def issueGroqBody : String :=
  "\x7b\"choices\":[\x7b\"message\":\x7b\"content\":\"[\x7b\\\"file\\\":\\\"a.ts\\\",\\\"message\\\":\\\"m\\\"\x7d]\"\x7d\x7d]\x7d"

/-- Oracle: every attempt succeeds with the one-issue payload. -/
def issueOracle : Nat → Nat → GroqHttp := fun _ _ => .response 200 issueGroqBody

/-- Witness for the C2 amendment at a concrete input whose outcome has
one issue attributed to the single (distinctly named) input file. -/
theorem perFile_partition_amended_witness :
    ((reviewPullRequest 1 "t" "b" "h" [waFile] [] [] issueOracle "now").files.map
        (·.issues)).flatten.Perm
      (reviewPullRequest 1 "t" "b" "h" [waFile] [] [] issueOracle "now").issues := by
  refine (perFile_partition_amended 1 "t" "b" "h" [waFile] [] [] issueOracle "now").2.2 ?_ ?_
  · show ([waFile].map (·.filename)).Nodup
    rw [show [waFile].map (·.filename) = ["a.ts"] from rfl]
    simp
  · intro i hi
    rw [reviewPullRequest_issues] at hi
    rw [show reviewIssuesOf issueOracle [waFile] =
      [{ id := "ai-a.ts-0-0", file := "a.ts", line := 0, endLine := none,
         severity := .info, category := .bestPractice, message := "m",
         snippet := none, suggestion := none }] from rfl] at hi
    rw [List.mem_singleton.mp hi]
    simp [waFile, mkFile]

end AICodeReviewer

namespace AICodeReviewer

/-! ## Claim C4: the empty-batch remote call -/

/-- C4 counterexample: for a change-set whose only file is `removed`
there are no reviewable files and batching produces exactly one empty
batch, but the orchestrator still performs ONE remote call (the loop
has no emptiness check), not zero as the claim states. -/
theorem no_reviewable_one_call_cex :
    reviewableOf [removedFile] = [] ∧
    batchFiles (reviewableOf [removedFile]) 25000 = [[]] ∧
    (reviewRun okOracle [removedFile]).2.2.2 = 1 ∧
    (reviewRun okOracle [removedFile]).2.2.2 ≠ 0 := ⟨rfl, rfl, rfl, by decide⟩

/-- C4 amended: with no reviewable files, batching produces exactly one
empty batch and the orchestrator performs exactly ONE remote call for
it (the remote call is not skipped; its prompt simply contains no file
diffs). -/
theorem no_reviewable_files_one_remote_call (files : List PRFile)
    (o : Nat → Nat → GroqHttp) (hnone : reviewableOf files = []) :
    batchFiles (reviewableOf files) 25000 = [[]] ∧
    (reviewRun o files).2.2.2 = 1 := by
  constructor
  · rw [hnone]
    rfl
  · rw [reviewRun, hnone]
    show (runBatchesAux o 0 (batchFiles [] 25000) [] false "" 0).2.2.2 = 1
    rw [show batchFiles [] 25000 = [[]] from rfl]
    show (runBatchesAux o 0 [[]] [] false "" 0).2.2.2 = 1
    rw [runBatchesAux]
    split <;> rfl

/-- Witness for the C4 amendment at the concrete removed-file input. -/
theorem no_reviewable_files_one_remote_call_witness :
    batchFiles (reviewableOf [removedFile]) 25000 = [[]] ∧
    (reviewRun issueOracle [removedFile]).2.2.2 = 1 :=
  no_reviewable_files_one_remote_call [removedFile] issueOracle (by rfl)

/-! ## Claim C5: the synthetic failure issue -/

/-- A 13,000-character diff body (large enough that two such files
split into two batches under the 25,000-character ceiling). -/
def bigPatch13k : String := String.mk (List.replicate 13000 'b')

theorem bigPatch13k_length : bigPatch13k.length = 13000 := by
  rw [bigPatch13k]
  exact List.length_replicate 13000 'b'

def cf1 : PRFile := mkFile "a.ts" .modified (some bigPatch13k)
def cf2 : PRFile := mkFile "b.ts" .modified (some bigPatch13k)

theorem patchLen_cf1 : patchLen cf1 = 13000 := by
  simp [patchLen, cf1, mkFile, bigPatch13k_length]

theorem patchLen_cf2 : patchLen cf2 = 13000 := by
  simp [patchLen, cf2, mkFile, bigPatch13k_length]

theorem reviewable_cf : reviewableOf [cf1, cf2] = [cf1, cf2] := by
  simp [reviewableOf, cf1, cf2, mkFile, List.filter, bigPatch13k_length]

theorem batches_cf : batchFiles [cf1, cf2] 25000 = [[cf1], [cf2]] := by
  simp [batchFiles, batchLoop, patchLen_cf1, patchLen_cf2]

/-- Oracle for the C5 counterexample: batch 0 succeeds with an empty
issues array, batch 1 fails with HTTP 500. -/
def c5oracle : Nat → Nat → GroqHttp := fun b _ =>
  if b = 0 then .response 200 okGroqBody else .response 500 "boom"

/-- C5 counterexample: batch 0 SUCCEEDS (remote call returns an empty
issue array) while batch 1 fails, yet the outcome contains the
synthetic error issue — the source guards on `allIssues.length === 0`,
not on every batch having failed, contradicting the claim that no
synthetic issue is added when at least one batch succeeded. -/
theorem synthetic_despite_success_cex :
    (callGroqWithRetry (c5oracle 0) 3).1 = .ok "[]" ∧
    (reviewPullRequest 1 "t" "b" "h" [cf1, cf2] [] [] c5oracle "now").issues =
      [mkApiErrorIssue "a.ts" "Groq API 500: boom"] := by
  constructor
  · rfl
  · rw [reviewPullRequest_issues, reviewIssuesOf, reviewRun, reviewable_cf, batches_cf]
    rfl

/-- C5 amended: the synthetic error issue is appended exactly when some
batch call failed AND zero issues were collected from the (possibly
successful) batches AND a reviewable file exists; in that case the
outcome issues are exactly the one synthetic issue; in every other case
the outcome issues are exactly the collected ones, with no synthetic
issue added.  (All batches failing implies zero collected issues, but a
successful batch with zero findings alongside a failed batch also
triggers the synthetic issue.) -/
theorem synthetic_issue_characterization (p : Nat) (t b h : String) (fs : List PRFile)
    (ec cr : List String) (o : Nat → Nat → GroqHttp) (n : String) :
    ((reviewRun o fs).2.1 = true ∧ (reviewRun o fs).1 = [] ∧ reviewableOf fs ≠ [] →
      (reviewPullRequest p t b h fs ec cr o n).issues =
        [mkApiErrorIssue (((reviewableOf fs).head?.map (·.filename)).getD "")
          (reviewRun o fs).2.2.1]) ∧
    (¬((reviewRun o fs).2.1 = true ∧ (reviewRun o fs).1 = [] ∧ reviewableOf fs ≠ []) →
      (reviewPullRequest p t b h fs ec cr o n).issues = (reviewRun o fs).1) := by
  rw [reviewPullRequest_issues, reviewIssuesOf, finalIssues]
  constructor
  · intro hcond
    obtain ⟨h1, h2, h3⟩ := hcond
    rw [if_pos ⟨h1, by rw [h2]; rfl, List.length_pos.mpr h3⟩, h2, List.nil_append]
  · intro hncond
    rw [if_neg]
    intro hcond2
    obtain ⟨h1, h2, h3⟩ := hcond2
    exact hncond ⟨h1, List.length_eq_zero.mp h2, List.length_pos.mp h3⟩

/-- Witness for the C5 amendment: the appended-synthetic case at the
two-batch input above, and the no-synthetic case at a one-file input
whose single batch succeeds with one finding. -/
theorem synthetic_issue_characterization_witness :
    (reviewPullRequest 1 "t" "b" "h" [cf1, cf2] [] [] c5oracle "now").issues =
      [mkApiErrorIssue (((reviewableOf [cf1, cf2]).head?.map (·.filename)).getD "")
        (reviewRun c5oracle [cf1, cf2]).2.2.1] ∧
    (reviewPullRequest 1 "t" "b" "h" [waFile] [] [] issueOracle "now").issues =
      (reviewRun issueOracle [waFile]).1 := by
  constructor
  · refine (synthetic_issue_characterization 1 "t" "b" "h" [cf1, cf2] [] [] c5oracle "now").1
      ⟨?_, ?_, ?_⟩
    · rw [reviewRun, reviewable_cf, batches_cf]
      rfl
    · rw [reviewRun, reviewable_cf, batches_cf]
      rfl
    · rw [reviewable_cf]
      simp
  · refine (synthetic_issue_characterization 1 "t" "b" "h" [waFile] [] [] issueOracle "now").2 ?_
    intro hcond
    obtain ⟨h1, _, _⟩ := hcond
    rw [show (reviewRun issueOracle [waFile]).2.1 = false from rfl] at h1
    exact Bool.false_ne_true h1

end AICodeReviewer

namespace AICodeReviewer

/-! ## Claim C6: retry policy -/

theorem charsHasPre_self_append (pat rest : List Char) :
    charsHasPre pat (pat ++ rest) = true := by
  induction pat with
  | nil => rfl
  | cons c cs ih => simp [charsHasPre, ih]

theorem charsIncludes_of_hasPre (pat l : List Char) (h : charsHasPre pat l = true) :
    charsIncludes pat l = true := by
  cases l with
  | nil => exact h
  | cons c t => simp [charsIncludes, h]

theorem charsIncludes_cons_of (pat l : List Char) (c : Char)
    (h : charsIncludes pat l = true) : charsIncludes pat (c :: l) = true := by
  simp [charsIncludes, h]

theorem charsIncludes_append_left (pat l2 : List Char) (h : charsIncludes pat l2 = true) :
    ∀ l1, charsIncludes pat (l1 ++ l2) = true := by
  intro l1
  induction l1 with
  | nil => exact h
  | cons c t ih => exact charsIncludes_cons_of pat (t ++ l2) c ih

/-- Every non-success error message starts with `Groq API <code>: `. -/
theorem groqErrMsg_shape (code : Nat) (data : String) :
    ∃ rest, groqErrMsg code data = "Groq API " ++ toString code ++ (": " ++ rest) := by
  rw [groqErrMsg]
  split
  · split
    · split
      · exact ⟨_, by rw [String.append_assoc]⟩
      · exact ⟨_, by rw [String.append_assoc]⟩
    · exact ⟨_, by rw [String.append_assoc]⟩
  · exact ⟨_, by rw [String.append_assoc]⟩

/-- A true HTTP 429 failure always yields an error message containing
the substring 429 (so it is always retried by the source condition). -/
theorem groqErrMsg_429_contains (data : String) :
    strIncludes (groqErrMsg 429 data) "429" = true := by
  obtain ⟨rest, hEq⟩ := groqErrMsg_shape 429 data
  rw [hEq, strIncludes]
  have hsplit : ("Groq API " ++ toString 429 ++ (": " ++ rest)).toList =
      "Groq API ".toList ++ ("429".toList ++ (": " ++ rest).toList) := by
    show ("Groq API " ++ toString 429 ++ (": " ++ rest)).data = _
    rw [String.data_append, String.data_append]
    rfl
  rw [hsplit]
  exact charsIncludes_append_left "429".toList _
    (charsIncludes_of_hasPre _ _ (charsHasPre_self_append "429".toList _)) "Groq API ".toList

/-- Attempt oracle for the C6 counterexample: the first attempt fails
with HTTP 500 and a body that smuggles 429 into the error message; the
second attempt succeeds. -/
def cexAttempts : Nat → GroqHttp := fun a =>
  if a = 1 then .response 500 "x429x" else .response 200 okGroqBody

/-- C6 counterexample: a NON-429 status (HTTP 500) whose extracted
message contains the substring 429 is retried rather than failing the
batch immediately: a 10-second backoff is recorded and the second
attempt turns the batch into a success. -/
theorem non429_retried_cex :
    cexAttempts 1 = .response 500 "x429x" ∧
    callGroq (cexAttempts 1) = .error "Groq API 500: x429x" ∧
    callGroqWithRetry cexAttempts 3 = (.ok "[]", [10]) := ⟨rfl, rfl, rfl⟩

/-- C6 amended: per batch at most 3 attempts are made; a success
returns immediately with no backoff; a failure is retried exactly when
its error MESSAGE contains the substring 429 (true of every actual
HTTP 429 failure, whose message starts with `Groq API 429`, but also of
any other failure whose message happens to contain 429) and an attempt
remains, with backoff waits of 10 then 20 seconds, the third outcome
being surfaced as is; a failure whose message does not contain 429
fails the batch immediately; and every non-success HTTP response fails
with a message carrying the status code and a message extracted from
the response body where possible. -/
theorem retry_policy_characterization (attempts : Nat → GroqHttp) :
    (∀ s, callGroq (attempts 1) = .ok s → callGroqWithRetry attempts 3 = (.ok s, [])) ∧
    (∀ e, callGroq (attempts 1) = .error e → strIncludes e "429" = false →
      callGroqWithRetry attempts 3 = (.error e, [])) ∧
    (∀ e1 e2, callGroq (attempts 1) = .error e1 → strIncludes e1 "429" = true →
      callGroq (attempts 2) = .error e2 → strIncludes e2 "429" = true →
      callGroqWithRetry attempts 3 = (callGroq (attempts 3), [10, 20])) ∧
    (∀ data, strIncludes (groqErrMsg 429 data) "429" = true) ∧
    (∀ code data, code ≠ 200 →
      callGroq (.response code data) = .error (groqErrMsg code data)) := by
  refine ⟨?_, ?_, ?_, groqErrMsg_429_contains, ?_⟩
  · intro s h
    simp [callGroqWithRetry, callGroqWithRetryGo, h]
  · intro e h hnot
    simp [callGroqWithRetry, callGroqWithRetryGo, h, hnot]
  · intro e1 e2 h1 h1c h2 h2c
    rcases hc : callGroq (attempts 3) with s | e3
    · simp [callGroqWithRetry, callGroqWithRetryGo, h1, h1c, h2, h2c, hc]
    · simp [callGroqWithRetry, callGroqWithRetryGo, h1, h1c, h2, h2c, hc]
  · intro code data hne
    simp [callGroq, hne]

/-- Oracle whose every attempt succeeds with zero issues. -/
def okAttempts : Nat → GroqHttp := fun _ => .response 200 okGroqBody

/-- Oracle that always rate-limits. -/
def all429Attempts : Nat → GroqHttp := fun _ => .response 429 "boom"

/-- Oracle that always fails with a plain HTTP 500. -/
def plainFailAttempts : Nat → GroqHttp := fun _ => .response 500 "plain"

/-- Witness for the C6 amendment at concrete oracles: an immediate
success, an immediate non-429-message failure, the full 429 retry
sequence with backoffs 10 and 20 seconds, and the status-code-carrying
error of a non-success response. -/
theorem retry_policy_characterization_witness :
    callGroqWithRetry okAttempts 3 = (.ok "[]", []) ∧
    callGroqWithRetry plainFailAttempts 3 = (.error "Groq API 500: plain", []) ∧
    callGroqWithRetry all429Attempts 3 = (callGroq (all429Attempts 3), [10, 20]) ∧
    strIncludes (groqErrMsg 429 "zzz") "429" = true ∧
    callGroq (.response 503 "oops") = .error (groqErrMsg 503 "oops") := by
  refine ⟨?_, ?_, ?_, ?_, ?_⟩
  · exact (retry_policy_characterization okAttempts).1 "[]" rfl
  · exact (retry_policy_characterization plainFailAttempts).2.1 "Groq API 500: plain" rfl rfl
  · exact (retry_policy_characterization all429Attempts).2.2.1 "Groq API 429: boom"
      "Groq API 429: boom" rfl rfl rfl rfl
  · exact (retry_policy_characterization all429Attempts).2.2.2.1 "zzz"
  · exact (retry_policy_characterization all429Attempts).2.2.2.2 503 "oops" (by decide)

end AICodeReviewer

namespace AICodeReviewer

/-! ## Claim C7: response-payload parsing -/

/-- A payload on which the greedy regex and the first-complete-array
reading disagree: the first complete array parses to one issue-shaped
element, but the greedy bracket span has a trailing bracket and fails
to parse. -/
def cexPayload : String := "[\x7b\"message\":\"m\",\"file\":\"f\"\x7d] ]"

/-- C7 counterexample: on `cexPayload` the first syntactically complete
JSON array substring exists and yields one issue (as the spec-worded
parser shows), but the source takes the GREEDY span from the first
bracket to the LAST bracket, which does not parse, so the source parser
yields zero issues — it does not locate the first syntactically
complete JSON array substring. -/
theorem greedy_not_first_complete_cex :
    parseAIResponse cexPayload = [] ∧
    specParseAIResponse cexPayload =
      [{ id := "ai-f-0-0", file := "f", line := 0, endLine := none, severity := .info,
         category := .bestPractice, message := "m", snippet := none,
         suggestion := none }] := ⟨rfl, rfl⟩

/-- C7 amended: parsing trims the payload, strips surrounding code
fences when the payload starts with one, then takes the GREEDY bracket
span (first opening bracket through last closing bracket); when no such
span exists, or the span does not parse as a JSON array, the result is
zero issues (not an error); in particular the example payload parses to
zero issues. -/
theorem parse_zero_issue_cases (response : String) :
    (greedyArrayMatch (cleanedResponse response) = none → parseAIResponse response = []) ∧
    (∀ m, greedyArrayMatch (cleanedResponse response) = some m →
      (∀ items, jparse m ≠ some (.jarr items)) → parseAIResponse response = []) ∧
    parseAIResponse "Sure! ```json\n[]\n```" = [] := by
  refine ⟨?_, ?_, rfl⟩
  · intro hm
    simp only [parseAIResponse]
    rw [hm]
  · intro m hm hnot
    rcases hj : jparse m with _ | v
    · simp [parseAIResponse, hm, hj]
    · cases v with
      | jnull => simp [parseAIResponse, hm, hj]
      | jbool b => simp [parseAIResponse, hm, hj]
      | jnum n => simp [parseAIResponse, hm, hj]
      | jstr s => simp [parseAIResponse, hm, hj]
      | jarr items => exact absurd hj (hnot items)
      | jobj fields => simp [parseAIResponse, hm, hj]

/-- Witness for the C7 amendment: a payload with no bracket span, and a
payload whose bracket span is not valid JSON, both parse to zero
issues. -/
theorem parse_zero_issue_cases_witness :
    parseAIResponse "no array here" = [] ∧ parseAIResponse "[ x ]" = [] := by
  constructor
  · exact (parse_zero_issue_cases "no array here").1 rfl
  · refine (parse_zero_issue_cases "[ x ]").2.1 "[ x ]" rfl ?_
    intro items h
    rw [show jparse "[ x ]" = none from rfl] at h
    exact Option.noConfusion h

/-! ## Claim C8: the action filter -/

/-- A placeholder digest function (the no-secret paths never consult
it). -/
def noHmac : String → String → String := fun _ _ => ""

def syncBody : String :=
  "\x7b\"action\":\"synchronize\",\"number\":7,\"pull_request\":\x7b\"title\":\"t\"\x7d\x7d"

def syncReq : HttpRequest :=
  { method := "POST", url := "/webhook", signatureHeader := none,
    eventHeader := some "pull_request", body := syncBody }

def syncedBody : String :=
  "\x7b\"action\":\"synchronized\",\"number\":7,\"pull_request\":\x7b\"title\":\"t\"\x7d\x7d"

def syncedReq : HttpRequest :=
  { method := "POST", url := "/webhook", signatureHeader := none,
    eventHeader := some "pull_request", body := syncedBody }

/-- C8 counterexample: the gateway PROCESSES the action string
`synchronize` (emitting the event and answering with the subject id and
action) although it is not in the claim set, and IGNORES the action
string `synchronized` (emitting nothing) although the claim set
contains it: the source allow-list reads `synchronize`. -/
theorem synchronize_vs_synchronized_cex :
    (handleRequest noHmac "" "now" syncReq).emitted.length = 1 ∧
    (handleRequest noHmac "" "now" syncReq).response =
      some { status := 200,
             body := "\x7b\"message\":\"Review triggered\",\"pr\":7,\"action\":\"synchronize\"\x7d" } ∧
    (handleRequest noHmac "" "now" syncedReq).emitted.length = 0 ∧
    (handleRequest noHmac "" "now" syncedReq).response =
      some { status := 200,
             body := "\x7b\"message\":\"PR action " ++ sq ++ "synchronized" ++ sq ++
               " ignored\"\x7d" } := ⟨rfl, rfl, rfl, rfl⟩

/-- C8 amended: on the webhook path with the pull-request event header
and a JSON body whose action is the string `a`, the gateway (with no
secret configured) emits the payload and answers 200 with the subject
id and action exactly when `a` is one of \x7bopened, synchronize,
reopened, ready_for_review\x7d (`synchronize`, not `synchronized`);
any other action string gets a 200 `ignored` acknowledgement and no
event. -/
theorem webhook_action_filter (hmac : String → String → String) (nowIso : String)
    (req : HttpRequest) (payload : JValue) (a : String)
    (hm : req.method = "POST") (hu : req.url = "/webhook")
    (he : req.eventHeader = some "pull_request")
    (hp : jparse req.body = some payload)
    (ha : jGet payload "action" = some (.jstr a)) :
    (a ∈ relevantActions →
      (handleRequest hmac "" nowIso req).emitted = [payload] ∧
      (handleRequest hmac "" nowIso req).response =
        some (mkJsonRes 200 (.jobj
          ([("message", .jstr "Review triggered")] ++
            (match jGet payload "number" with
             | some v => [("pr", v)]
             | none => []) ++ [("action", .jstr a)])))) ∧
    (a ∉ relevantActions →
      (handleRequest hmac "" nowIso req).emitted = [] ∧
      (handleRequest hmac "" nowIso req).response =
        some (mkJsonRes 200 (.jobj [("message",
          .jstr ("PR action " ++ sq ++ a ++ sq ++ " ignored"))]))) := by
  have hpnn : payload ≠ JValue.jnull := by
    intro hEq
    rw [hEq] at ha
    exact Option.noConfusion ha
  constructor
  · intro hmem
    have hcontains : relevantActions.contains a = true := List.elem_iff.mpr hmem
    simp only [handleRequest, hm, hu, he, hp]
    cases payload with
    | jnull => exact absurd rfl hpnn
    | jbool b => simp [ha, hcontains, hmem]
    | jnum n => simp [ha, hcontains, hmem]
    | jstr s => simp [ha, hcontains, hmem]
    | jarr items => simp [ha, hcontains, hmem]
    | jobj fields => simp [ha, hcontains, hmem]
  · intro hnmem
    have hcontains : relevantActions.contains a = false := by
      rw [Bool.eq_false_iff]
      intro hc
      exact hnmem (List.elem_iff.mp hc)
    simp only [handleRequest, hm, hu, he, hp]
    cases payload with
    | jnull => exact absurd rfl hpnn
    | jbool b => simp [ha, hcontains, hnmem, jToString]
    | jnum n => simp [ha, hcontains, hnmem, jToString]
    | jstr s => simp [ha, hcontains, hnmem, jToString]
    | jarr items => simp [ha, hcontains, hnmem, jToString]
    | jobj fields => simp [ha, hcontains, hnmem, jToString]

/-- The parsed payload of `syncBody`. -/
def jparseSyncPayload : JValue :=
  .jobj [("action", .jstr "synchronize"), ("number", .jnum 7),
    ("pull_request", .jobj [("title", .jstr "t")])]

def closedBody : String :=
  "\x7b\"action\":\"closed\",\"number\":7,\"pull_request\":\x7b\"title\":\"t\"\x7d\x7d"

def closedReq : HttpRequest :=
  { method := "POST", url := "/webhook", signatureHeader := none,
    eventHeader := some "pull_request", body := closedBody }

/-- The parsed payload of `closedBody`. -/
def jparseClosedPayload : JValue :=
  .jobj [("action", .jstr "closed"), ("number", .jnum 7),
    ("pull_request", .jobj [("title", .jstr "t")])]

/-- Witness for the C8 amendment: the `synchronize` request is
processed with the event emitted, and an `action = closed` request is
ignored with no event. -/
theorem webhook_action_filter_witness :
    ((handleRequest noHmac "" "now" syncReq).emitted = [jparseSyncPayload] ∧
      (handleRequest noHmac "" "now" syncReq).response =
        some (mkJsonRes 200 (.jobj
          ([("message", .jstr "Review triggered")] ++
            (match jGet jparseSyncPayload "number" with
             | some v => [("pr", v)]
             | none => []) ++ [("action", .jstr "synchronize")])))) ∧
    ((handleRequest noHmac "" "now" closedReq).emitted = [] ∧
      (handleRequest noHmac "" "now" closedReq).response =
        some (mkJsonRes 200 (.jobj [("message",
          .jstr ("PR action " ++ sq ++ "closed" ++ sq ++ " ignored"))]))) := by
  constructor
  · exact (webhook_action_filter noHmac "now" syncReq jparseSyncPayload "synchronize"
      rfl rfl rfl rfl rfl).1 (by simp [relevantActions])
  · exact (webhook_action_filter noHmac "now" closedReq jparseClosedPayload "closed"
      rfl rfl rfl rfl rfl).2 (by simp [relevantActions])

end AICodeReviewer

namespace AICodeReviewer

/-! ## Claim C9: signature verification -/

/-- A stand-in digest function with the real digest arity: HMAC-SHA256
hex digests are 64 characters; only the digest LENGTH matters to the
exhibited behaviour. -/
def stubHmac : String → String → String := fun _ _ => String.mk (List.replicate 64 'a')

/-- A webhook request carrying a 9-byte signature header. -/
def badSigReq : HttpRequest :=
  { method := "POST", url := "/webhook", signatureHeader := some "sha256=ff",
    eventHeader := some "pull_request", body := "\x7b\x7d" }

/-- C9 failing input (code bug): with a secret configured, a present
signature header whose byte length differs from the 71-byte expected
digest (`sha256=` + 64 hex characters) makes
`crypto.timingSafeEqual(Buffer.from(signature), Buffer.from(digest))`
THROW instead of returning false; the exception escapes `handleRequest`
(the signature check sits outside the try/catch), so the gateway
crashes without writing the 401 response that the claim — clearly the
intent, and what the function signature `verifySignature(...): boolean`
promises — requires for every non-matching header.  A same-length
non-matching header, by contrast, does get the 401. -/
theorem short_signature_crashes_not_401 :
    verifySignature stubHmac "sec" "\x7b\x7d" (some "sha256=ff") = .error () ∧
    (handleRequest stubHmac "sec" "now" badSigReq).response = none ∧
    (handleRequest stubHmac "sec" "now" badSigReq).emitted = [] ∧
    (handleRequest stubHmac "sec" "now" badSigReq).crashed = true ∧
    (handleRequest stubHmac "sec" "now"
        { badSigReq with signatureHeader := some ("sha256=" ++ String.mk (List.replicate 64 'b')) }).response =
      some (mkJsonRes 401 (.jobj [("error", .jstr "Invalid signature")])) :=
  ⟨rfl, rfl, rfl, rfl, rfl⟩

end AICodeReviewer

namespace AICodeReviewer

/-- Witness instantiating the C1 status characterization at a concrete
run whose only finding is `info`-severity: zero errors and warnings
force the `pass` verdict. -/
theorem status_matches_severity_counts_witness :
    (reviewPullRequest 1 "t" "b" "h" [waFile] [] [] issueOracle "now").status =
      ReviewStatus.pass :=
  (status_matches_severity_counts 1 "t" "b" "h" [waFile] [] [] issueOracle "now").2.2.mpr
    ⟨rfl, rfl⟩

/-- Witness instantiating C10 at a two-file change-set of which only
one file is reviewable: `totalFiles` still counts both. -/
theorem summary_totalFiles_all_files_witness :
    (reviewPullRequest 1 "t" "b" "h" [removedFile, waFile] [] [] issueOracle
      "now").summary.totalFiles = 2 :=
  summary_totalFiles_all_files 1 "t" "b" "h" [removedFile, waFile] [] [] issueOracle "now"

end AICodeReviewer
